import Mathlib

set_option maxRecDepth 4000000

/-!
Verification of the workbrew-backend geospatial place service
(`src/services/placeService.ts`) against its natural-language specification.

Modelling conventions for the shallow embedding:

* JavaScript numbers are modelled as rationals (`ℚ`).  All coordinate
  arithmetic performed by the service (interval bisection by 2, additions,
  subtractions, divisions by the fixed constants, comparisons against the
  precision thresholds) is exact dyadic/rational arithmetic in which IEEE
  doubles and rationals agree at the sample points used below, which are
  kept far away from representation boundaries.
* `Math.cos` is transcendental and has no exact rational value; the one
  place it is used (`calculateBoundingBox`) therefore receives the cosine
  of the latitude as an explicit parameter `cosLat`, and theorems either
  quantify over it or instantiate it with a rational approximation whose
  error provably cannot change the control flow of the scenario.
* `calculateDistance` (haversine) is built from `Math.sin`, `Math.cos`,
  `Math.sqrt` and `Math.atan2`; the search pipeline receives it as an
  explicit function parameter `dist`.  Structural theorems quantify over
  `dist`; concrete scenarios only ever evaluate `dist` at identical
  points, where the source formula returns exactly 0 in IEEE arithmetic
  (all intermediate terms are exactly representable and vanish).
* The storage collaborator (spec section 6) lives outside the core: the
  secondary-index lookup used by the proximity search is a function
  `query : String → Except String (List Place)` so that failing lookups
  (promise rejection) can be expressed; the by-id operations use a plain
  list of places with DynamoDB put/get/delete-by-key semantics.
* `async`/`await` sequencing is strictly linear in the service, so the
  embedding is direct state passing; `Promise.all` is modelled by
  collecting a list of `Except` results, failing with the first error.
-/

namespace Workbrew

/-! ## Geohash codec

The service delegates `encode` and `neighbors` to the `ngeohash` npm
package (not part of this repository).  The definitions below embed that
dependency: the standard geohash bisection algorithm, exactly as the spec
(section 4.1) describes it and as the package implements it — alternating
longitude/latitude interval halving starting with longitude, emitting one
base-32 character per 5 bits.  Note the algorithm never validates its
inputs: an out-of-range coordinate simply compares above (or below) every
midpoint and saturates into the boundary cell. -/

def base32Chars : List Char := "0123456789bcdefghjkmnpqrstuvwxyz".toList

/-- State of the `ngeohash` encode loop: current latitude/longitude
interval, number of bits accumulated in the pending base-32 character,
total bits emitted, pending character value, and emitted characters. -/
structure EncState where
  maxLat : ℚ
  minLat : ℚ
  maxLng : ℚ
  minLng : ℚ
  bits : ℕ
  bitsTotal : ℕ
  hashValue : ℕ
  chars : List Char
deriving Repr

/-- One iteration of the encode while-loop. -/
def encodeStep (lat lng : ℚ) (s : EncState) : EncState :=
  let s1 :=
    if s.bitsTotal % 2 = 0 then
      let mid := (s.maxLng + s.minLng) / 2
      if lng > mid then
        { s with hashValue := 2 * s.hashValue + 1, minLng := mid }
      else
        { s with hashValue := 2 * s.hashValue, maxLng := mid }
    else
      let mid := (s.maxLat + s.minLat) / 2
      if lat > mid then
        { s with hashValue := 2 * s.hashValue + 1, minLat := mid }
      else
        { s with hashValue := 2 * s.hashValue, maxLat := mid }
  let s2 := { s1 with bits := s1.bits + 1, bitsTotal := s1.bitsTotal + 1 }
  if s2.bits = 5 then
    { s2 with
      chars := s2.chars ++ [base32Chars.getD s2.hashValue ' ']
      bits := 0
      hashValue := 0 }
  else s2

/-- The encode while-loop, run for a fixed number of bit iterations
(`5 * precision` in `encodeGeohash`, matching the loop guard
`chars.length < precision`). -/
def encodeLoop (lat lng : ℚ) : ℕ → EncState → EncState
  | 0, s => s
  | n + 1, s => encodeLoop lat lng n (encodeStep lat lng s)

def encInit : EncState :=
  { maxLat := 90, minLat := -90, maxLng := 180, minLng := -180
    bits := 0, bitsTotal := 0, hashValue := 0, chars := [] }

/-- `placeService.encodeGeohash(lat, lng, precision = 9)`: delegates to
`ngeohash.encode`, embedded above.  Total — the source never throws. -/
def encodeGeohash (lat lng : ℚ) (precision : ℕ := 9) : String :=
  ⟨(encodeLoop lat lng (5 * precision) encInit).chars⟩

/-- Index of a character in the base-32 alphabet (`ngeohash` decode
table). -/
def base32Index (c : Char) : ℕ := base32Chars.indexOf c

/-- The five bits of a base-32 value, most significant first. -/
def charBits (n : ℕ) : List Bool :=
  [n / 16 % 2 = 1, n / 8 % 2 = 1, n / 4 % 2 = 1, n / 2 % 2 = 1, n % 2 = 1]

/-- Interval state of `ngeohash.decode_bbox`:
(minLat, minLon, maxLat, maxLon) plus the longitude/latitude alternation
flag. -/
structure DecState where
  minLat : ℚ
  minLon : ℚ
  maxLat : ℚ
  maxLon : ℚ
  isLon : Bool
deriving Repr

def decodeBit (st : DecState) (bit : Bool) : DecState :=
  if st.isLon then
    let mid := (st.maxLon + st.minLon) / 2
    if bit then { st with minLon := mid, isLon := false }
    else { st with maxLon := mid, isLon := false }
  else
    let mid := (st.maxLat + st.minLat) / 2
    if bit then { st with minLat := mid, isLon := true }
    else { st with maxLat := mid, isLon := true }

/-- `ngeohash.decode_bbox`: replay the bits of the hash, narrowing the
latitude/longitude intervals. -/
def decodeBbox (h : String) : DecState :=
  (h.toList.flatMap (fun c => charBits (base32Index c))).foldl decodeBit
    { minLat := -90, minLon := -180, maxLat := 90, maxLon := 180, isLon := true }

/-- JavaScript `%` on numbers (fmod): remainder with the sign of the
dividend, `a - b * trunc(a / b)`. -/
def jsFmod (a b : ℚ) : ℚ :=
  a - b * ((if a / b < 0 then ⌈a / b⌉ else ⌊a / b⌋) : ℤ)

/-- `ngeohash` longitude wrap applied to neighbor candidates. -/
def ensureValidLon (lon : ℚ) : ℚ :=
  if lon > 180 then -180 + jsFmod lon 180
  else if lon < -180 then 180 + jsFmod lon 180
  else lon

/-- `ngeohash` latitude clamp applied to neighbor candidates. -/
def ensureValidLat (lat : ℚ) : ℚ :=
  if lat > 90 then 90 else if lat < -90 then -90 else lat

/-- `ngeohash.neighbors(hash)`: decode the cell center and cell size,
offset by one cell in each of the 8 compass directions, clamp/wrap, and
re-encode at the same precision.  A cell in the top latitude row has a
"north" neighbor whose latitude clamps back into the same row, so the
list can repeat the input cell near the poles. -/
def neighbors (h : String) : List String :=
  let d := decodeBbox h
  let lat := (d.minLat + d.maxLat) / 2
  let lon := (d.minLon + d.maxLon) / 2
  let latErr2 := (d.maxLat - lat) * 2
  let lonErr2 := (d.maxLon - lon) * 2
  let enc := fun (dLat dLon : ℤ) =>
    encodeGeohash (ensureValidLat (lat + dLat * latErr2))
      (ensureValidLon (lon + dLon * lonErr2)) h.length
  [enc 1 0, enc 1 1, enc 0 1, enc (-1) 1, enc (-1) 0, enc (-1) (-1),
    enc 0 (-1), enc 1 (-1)]

/-! ## Bounding box, precision selection, candidate cells
(pure helpers of `placeService.ts`). -/

/-- `placeService.calculateBoundingBox(lat, lng, radiusKm)`.  The source
computes `111.320 * Math.cos(lat * Math.PI / 180)`; the transcendental
cosine value is taken as the explicit parameter `cosLat` (see the module
comment). -/
structure BoundingBox where
  minLat : ℚ
  maxLat : ℚ
  minLng : ℚ
  maxLng : ℚ
deriving Repr, DecidableEq

def calculateBoundingBox (cosLat : ℚ) (lat lng radiusKm : ℚ) : BoundingBox :=
  let latKm : ℚ := 110574 / 1000
  let lngKm : ℚ := (111320 / 1000) * cosLat
  let latDelta := radiusKm / latKm
  let lngDelta := radiusKm / lngKm
  { minLat := lat - latDelta
    maxLat := lat + latDelta
    minLng := lng - lngDelta
    maxLng := lng + lngDelta }

/-- `placeService.calculateOptimalPrecision(boundingBox)`. -/
def calculateOptimalPrecision (boundingBox : BoundingBox) : ℕ :=
  let latSpan := boundingBox.maxLat - boundingBox.minLat
  let lngSpan := boundingBox.maxLng - boundingBox.minLng
  let maxSpan := max latSpan lngSpan
  if maxSpan ≥ 10 then 3
  else if maxSpan > 5/2 then 4
  else if maxSpan > 1/2 then 5
  else if maxSpan > 1/20 then 6
  else 7

/-- `placeService.calculateNeighborGeohashes(centerGeohash, boundingBox)`:
truncate the center hash to the selected precision and append it to its
8 neighbors.  No deduplication is performed by the source. -/
def calculateNeighborGeohashes (centerGeohash : String) (boundingBox : BoundingBox) :
    List String :=
  let precision := calculateOptimalPrecision boundingBox
  let truncatedHash := centerGeohash.take precision
  neighbors truncatedHash ++ [truncatedHash]

/-! ## Data model

`models/place.ts` defines `Place` with Zod.  The embedding keeps the
fields the service reads or writes (`id`, `location`, `geohash`,
`distance`, the timestamps, and the merged `amenities`/`attributes`
maps, plus the validated `name`/`address`); the remaining descriptive
fields are uninterpreted payload which, per spec section 3, the core
neither validates nor interprets.  `location` is `Option` because at runtime an
input object may lack it (the source guards `if (newPlace.location)`);
the schema itself requires it.  ISO timestamp strings are kept as
strings; `Date.now()` instants are integers (milliseconds). -/

structure Location where
  latitude : ℚ
  longitude : ℚ
deriving Repr, DecidableEq

structure Place where
  id : String
  name : String
  address : String
  location : Option Location
  geohash : Option String
  distance : Option ℚ
  amenities : List (String × Bool)
  attributes : List (String × String)
  createdAt : String
  updatedAt : String
deriving Repr, DecidableEq

/-- `PlaceSchema.parse` restricted to the modelled fields: `location`
required, `name` between 1 and 100 characters, `address` nonempty.  The
remaining schema constraints concern uninterpreted payload fields not carried
by the embedding. -/
def placeValid (p : Place) : Bool :=
  p.location.isSome && decide (1 ≤ p.name.length) && decide (p.name.length ≤ 100)
    && decide (1 ≤ p.address.length)

/-- Input to `createPlace` — the Place type with id, createdAt and
updatedAt omitted.
TypeScript types are erased at runtime, so the object spread into the new
place may still carry an `id`; the optional `id` field records that the
source discards it (the spread lists `id: uuidv4()` after
`...placeData`). -/
structure PlaceInput where
  id : Option String := none
  name : String
  address : String
  location : Option Location := none
  geohash : Option String := none
  distance : Option ℚ := none
  amenities : List (String × Bool) := []
  attributes : List (String × String) := []
deriving Repr, DecidableEq

/-- Argument of `updatePlace` — `Partial<Place>`: every field optional;
a `some` models a property present on the update object. -/
structure PlaceUpdate where
  id : Option String := none
  name : Option String := none
  address : Option String := none
  location : Option Location := none
  geohash : Option String := none
  distance : Option ℚ := none
  amenities : Option (List (String × Bool)) := none
  attributes : Option (List (String × String)) := none
  createdAt : Option String := none
deriving Repr, DecidableEq

/-- JavaScript object spread of `upd` over `base` on string-keyed maps
modelled as association lists: keys of `base` in order with values
overridden by `upd`, then the keys only in `upd`. -/
def mergeAssoc {α : Type} (base upd : List (String × α)) : List (String × α) :=
  base.map (fun kv => (kv.1, ((upd.find? (fun kv2 => kv2.1 = kv.1)).map Prod.snd).getD kv.2))
    ++ upd.filter (fun kv2 => ¬ base.any (fun kv => kv.1 = kv2.1))

/-! ## Storage collaborator and cache

DynamoDB by-key operations (`utils/dynamodb.ts`) on the places table:
`putItem` overwrites by `id`, `getItem` fetches by `id`, `deleteItem`
removes by `id`.  The module-level cache of `placeService.ts` is a map
from cache key to (data, insertion timestamp). -/

def putItem (store : List Place) (item : Place) : List Place :=
  if store.any (fun q => q.id = item.id) then
    store.map (fun q => if q.id = item.id then item else q)
  else store ++ [item]

def getItem (store : List Place) (id : String) : Option Place :=
  store.find? (fun q => q.id = id)

def deleteItem (store : List Place) (id : String) : List Place :=
  store.filter (fun q => ¬ q.id = id)

/-- The module-level cache: a map from string key to a pair of the
cached place and its insertion timestamp. -/
abbrev Cache : Type := List (String × Place × ℤ)

def cacheGet (c : Cache) (k : String) : Option (Place × ℤ) :=
  ((List.find? (fun e => e.1 = k) c).map Prod.snd)

def cacheSet (c : Cache) (k : String) (v : Place × ℤ) : Cache :=
  if (List.find? (fun e => e.1 = k) c).isSome then
    List.map (fun e => if e.1 = k then (k, v) else e) c
  else List.append c [(k, v)]

/-- `CACHE_TTL = 60 * 1000`. -/
def CACHE_TTL : ℤ := 60 * 1000

/-! ## Service operations -/

/-- Result of `getPlaceById`: the returned place (or null), the cache
after the call, and how many underlying storage `getItem` calls were
made (0 or 1). -/
structure GetResult where
  result : Option Place
  cache : Cache
  storeGets : ℕ
deriving Repr, DecidableEq

/-- `placeService.getPlaceById(id)`: return a live cache entry if one
exists, otherwise fetch from storage and (only when found) cache the
item with the current timestamp. -/
def getPlaceById (now : ℤ) (store : List Place) (cache : Cache) (id : String) :
    GetResult :=
  let cacheKey := "place:" ++ id
  let fetch : GetResult :=
    match getItem store id with
    | some item => ⟨some item, cacheSet cache cacheKey (item, now), 1⟩
    | none => ⟨none, cache, 1⟩
  match cacheGet cache cacheKey with
  | some (data, ts) => if now - ts < CACHE_TTL then ⟨some data, cache, 0⟩ else fetch
  | none => fetch

/-- `placeService.createPlace(placeData)`: spread the input, overwrite
`id` with a fresh UUID and both timestamps with the same instant,
compute the geohash when a location is present, validate, then persist.
`uuid` and `now` stand for the effects `uuidv4()` and
`new Date().toISOString()`.  A schema violation throws (error case) and
persists nothing. -/
def createPlace (now uuid : String) (store : List Place) (d : PlaceInput) :
    Except String (Place × List Place) :=
  let newPlace : Place :=
    { id := uuid
      name := d.name
      address := d.address
      location := d.location
      geohash := d.geohash
      distance := d.distance
      amenities := d.amenities
      attributes := d.attributes
      createdAt := now
      updatedAt := now }
  let newPlace :=
    match newPlace.location with
    | some loc =>
      { newPlace with geohash := some (encodeGeohash loc.latitude loc.longitude 9) }
    | none => newPlace
  if placeValid newPlace then Except.ok (newPlace, putItem store newPlace)
  else Except.error "ZodError"

instance {ε α : Type} [DecidableEq ε] [DecidableEq α] : DecidableEq (Except ε α) :=
  fun a b =>
    match a, b with
    | Except.ok x, Except.ok y =>
      if h : x = y then isTrue (by rw [h]) else isFalse (by simp [h])
    | Except.error x, Except.error y =>
      if h : x = y then isTrue (by rw [h]) else isFalse (by simp [h])
    | Except.ok _, Except.error _ => isFalse (by simp)
    | Except.error _, Except.ok _ => isFalse (by simp)

/-- Result of `updatePlace`/`deletePlace`: the value produced (inside
`Except` when validation can throw), plus the store and cache after the
call. -/
structure UpdateResult where
  result : Except String (Option Place)
  store : List Place
  cache : Cache
deriving Repr, DecidableEq

/-- `placeService.updatePlace(id, placeData)`: read the existing place
through the cache, spread the update over it, stamp `updatedAt`,
recompute the geohash only when the update carries a location, merge
`amenities`/`attributes`, validate, persist.  The cache entry for `id`
is never invalidated. -/
def updatePlace (now : ℤ) (nowIso : String) (store : List Place) (cache : Cache)
    (id : String) (d : PlaceUpdate) : UpdateResult :=
  let g := getPlaceById now store cache id
  match g.result with
  | none => ⟨Except.ok none, store, g.cache⟩
  | some existingPlace =>
    let updatedPlace : Place :=
      { id := d.id.getD existingPlace.id
        name := d.name.getD existingPlace.name
        address := d.address.getD existingPlace.address
        location := match d.location with
          | some l => some l
          | none => existingPlace.location
        geohash := match d.geohash with
          | some gh => some gh
          | none => existingPlace.geohash
        distance := match d.distance with
          | some x => some x
          | none => existingPlace.distance
        amenities := d.amenities.getD existingPlace.amenities
        attributes := d.attributes.getD existingPlace.attributes
        createdAt := d.createdAt.getD existingPlace.createdAt
        updatedAt := nowIso }
    let updatedPlace :=
      match d.location with
      | some loc =>
        { updatedPlace with
          geohash := some (encodeGeohash loc.latitude loc.longitude 9) }
      | none => updatedPlace
    let updatedPlace :=
      { updatedPlace with
        amenities := mergeAssoc existingPlace.amenities (d.amenities.getD [])
        attributes := mergeAssoc existingPlace.attributes (d.attributes.getD []) }
    if placeValid updatedPlace then
      ⟨Except.ok (some updatedPlace), putItem store updatedPlace, g.cache⟩
    else ⟨Except.error "ZodError", store, g.cache⟩

/-- `Promise.all` over the per-cell lookups: all results in order, or
the error of the first failing lookup. -/
def collectAll : List (Except String (List Place)) → Except String (List (List Place))
  | [] => Except.ok []
  | Except.error e :: _ => Except.error e
  | Except.ok l :: rest => (collectAll rest).map (fun ls => l :: ls)

/-- Sort key of the comparator `(a.distance || 0) - (b.distance || 0)`
(JavaScript `||` maps both a missing distance and a zero distance
to 0). -/
def distOr0 (p : Place) : ℚ := p.distance.getD 0

/-- The second-pass filter of `getPlacesNearby` (step 6 of the source):
drop places without a location, compute the exact distance from the
query point, annotate the place with it, and keep it only when the
distance is within the radius. -/
def annotateAndFilter (dist : ℚ → ℚ → ℚ → ℚ → ℚ) (lat lng radiusKm : ℚ)
    (results : List Place) : List Place :=
  results.filterMap (fun place =>
    match place.location with
    | none => none
    | some loc =>
      let d := dist lat lng loc.latitude loc.longitude
      if d ≤ radiusKm then some { place with distance := some d } else none)

/-- `placeService.getPlacesNearby(lat, lng, radiusKm)`.

Parameters standing for collaborator effects and transcendentals:
`cosLat` is the value of `Math.cos(lat * Math.PI / 180)`; `dist` is
`calculateDistance` (haversine, see the module comment); `query` is the
secondary-index lookup `begins_with(geohash, cell)` issued per candidate
cell, which may fail.  The `.sort` call (a stable ascending sort by the
comparator above) is modelled by `List.insertionSort`, the stable sort.
The `catch` wrapping any thrown error corresponds to the `Except.error`
branch. -/
def getPlacesNearby (cosLat : ℚ) (dist : ℚ → ℚ → ℚ → ℚ → ℚ)
    (query : String → Except String (List Place)) (lat lng radiusKm : ℚ) :
    Except String (List Place) :=
  let centerGeohash := encodeGeohash lat lng 9
  let boundingBox := calculateBoundingBox cosLat lat lng radiusKm
  let geohashPrefixes := calculateNeighborGeohashes centerGeohash boundingBox
  match collectAll (geohashPrefixes.map query) with
  | Except.error e =>
    Except.error ("Failed to fetch nearby places: " ++ e)
  | Except.ok queryResults =>
    let results := queryResults.flatten
    let nearbyPlaces := annotateAndFilter dist lat lng radiusKm results
    Except.ok (nearbyPlaces.insertionSort (fun a b => distOr0 a ≤ distOr0 b))

/-- The secondary-index lookup over a concrete table of places, used to
instantiate `query` in concrete scenarios: all stored items whose
`geohash` attribute begins with the candidate cell. -/
def queryByGeohash (store : List Place) (cell : String) : Except String (List Place) :=
  Except.ok (store.filter (fun p => cell.data.isPrefixOf (p.geohash.getD "").data))

/-- Result of `deletePlace`. -/
structure DeleteResult where
  result : Bool
  store : List Place
  cache : Cache
deriving Repr, DecidableEq

/-- `placeService.deletePlace(id)`: read through the cache, delete from
storage when present.  The cache entry for `id` is never invalidated. -/
def deletePlace (now : ℤ) (store : List Place) (cache : Cache) (id : String) :
    DeleteResult :=
  let g := getPlaceById now store cache id
  match g.result with
  | none => ⟨false, store, g.cache⟩
  | some _ => ⟨true, deleteItem store id, g.cache⟩

/-! ## Lemmas about the encode loop -/

theorem encodeStep_count (lat lng : ℚ) (s : EncState) (h : s.bits < 5) :
    5 * (encodeStep lat lng s).chars.length + (encodeStep lat lng s).bits
      = 5 * s.chars.length + s.bits + 1
    ∧ (encodeStep lat lng s).bits < 5 := by
  unfold encodeStep
  dsimp only
  split_ifs <;> simp_all <;> omega

theorem encodeLoop_count (lat lng : ℚ) :
    ∀ (fuel : ℕ) (s : EncState), s.bits < 5 →
      5 * (encodeLoop lat lng fuel s).chars.length + (encodeLoop lat lng fuel s).bits
        = 5 * s.chars.length + s.bits + fuel
      ∧ (encodeLoop lat lng fuel s).bits < 5
  | 0, s, h => by simpa [encodeLoop] using h
  | fuel + 1, s, h => by
    obtain ⟨h1, h2⟩ := encodeStep_count lat lng s h
    obtain ⟨h3, h4⟩ := encodeLoop_count lat lng fuel (encodeStep lat lng s) h2
    refine ⟨?_, h4⟩
    simp only [encodeLoop]
    omega

/-- Output length of the encode loop: every 5 bit-iterations emit one
character, so `5 * precision` iterations emit exactly `precision`
characters. -/
theorem encodeGeohash_length (lat lng : ℚ) (p : ℕ) :
    (encodeGeohash lat lng p).length = p := by
  have h := encodeLoop_count lat lng (5 * p) encInit (by simp [encInit])
  show (encodeLoop lat lng (5 * p) encInit).chars.length = p
  simp [encInit] at h ⊢
  omega

/-! ## Concrete sample data

Instantiations used by the concrete scenarios below.  `haversine0`
stands in for `calculateDistance`: in every scenario that evaluates it,
the candidate place sits exactly at the query point, where the source
haversine formula returns exactly 0 even in IEEE arithmetic (every
intermediate term is exactly representable and vanishes; the spec,
section 4.4, likewise mandates exactly 0 for identical points).
`cos89` is a rational approximation of `Math.cos(89 * Math.PI / 180)`;
in the polar scenario every comparison the pipeline makes is slack by
orders of magnitude more than the approximation error (the latitude
span alone already forces precision 3), so the control flow agrees with
the floating-point run. -/

def haversine0 : ℚ → ℚ → ℚ → ℚ → ℚ := fun _ _ _ _ => 0

def queryEmpty : String → Except String (List Place) := fun _ => Except.ok []

def queryDown : String → Except String (List Place) := fun _ => Except.error "connection lost"

def cos89 : ℚ := 174524064 / 10000000000

def pZero : Place :=
  ⟨"z1", "Zero Cafe", "0 Origin Sq", some ⟨0, 0⟩, some (encodeGeohash 0 0 9), none,
    [], [], "2026-01-01T00:00:00Z", "2026-01-01T00:00:00Z"⟩

def pZeroNear : Place := { pZero with distance := some 0 }

def pPole : Place :=
  ⟨"p1", "Pole Cafe", "1 North St", some ⟨89, 0⟩, some (encodeGeohash 89 0 9), none,
    [], [], "2026-01-01T00:00:00Z", "2026-01-01T00:00:00Z"⟩

def pPoleNear : Place := { pPole with distance := some 0 }

/-! ## Claim theorems -/

/-- C4 (counterexample): `encodeGeohash` does not fail for an
out-of-range latitude.  At latitude 100 (outside [-90, 90]) it returns
the ordinary 9-character geohash of the northern boundary cell — the
same string produced for latitude 90 — instead of an error. -/
theorem C4_counterexample :
    encodeGeohash 100 0 9 = "gzzzzzzzz"
    ∧ (encodeGeohash 100 0 9).length = 9
    ∧ encodeGeohash 100 0 9 = encodeGeohash 90 0 9 := by
  with_unfolding_all decide

/-- C4 (amended): for every latitude and longitude — in range or not —
and every precision, `encodeGeohash` returns a geohash string of length
exactly `precision` rather than failing; out-of-range coordinates are
never rejected (they saturate into the boundary cells, see the
counterexample). -/
theorem C4_encode_never_rejects (lat lng : ℚ) (p : ℕ) :
    (encodeGeohash lat lng p).length = p :=
  encodeGeohash_length lat lng p

/-- C5: `calculateOptimalPrecision` computes the span as the maximum of
the latitude and longitude extents and maps it to a precision by the
exact thresholds of the spec table: 3 for span ≥ 10, 4 on (2.5, 10),
5 on (0.5, 2.5], 6 on (0.05, 0.5], 7 for span ≤ 0.05; in particular 5
for a 1°×1° box, 3 for a 10°×10° box, 6 for a 0.1°×0.1° box. -/
theorem C5_precision_policy (b : BoundingBox) :
    (10 ≤ max (b.maxLat - b.minLat) (b.maxLng - b.minLng) →
      calculateOptimalPrecision b = 3)
    ∧ (5/2 < max (b.maxLat - b.minLat) (b.maxLng - b.minLng)
        ∧ max (b.maxLat - b.minLat) (b.maxLng - b.minLng) < 10 →
      calculateOptimalPrecision b = 4)
    ∧ (1/2 < max (b.maxLat - b.minLat) (b.maxLng - b.minLng)
        ∧ max (b.maxLat - b.minLat) (b.maxLng - b.minLng) ≤ 5/2 →
      calculateOptimalPrecision b = 5)
    ∧ (1/20 < max (b.maxLat - b.minLat) (b.maxLng - b.minLng)
        ∧ max (b.maxLat - b.minLat) (b.maxLng - b.minLng) ≤ 1/2 →
      calculateOptimalPrecision b = 6)
    ∧ (max (b.maxLat - b.minLat) (b.maxLng - b.minLng) ≤ 1/20 →
      calculateOptimalPrecision b = 7)
    ∧ calculateOptimalPrecision ⟨0, 1, 0, 1⟩ = 5
    ∧ calculateOptimalPrecision ⟨0, 10, 0, 10⟩ = 3
    ∧ calculateOptimalPrecision ⟨0, 1/10, 0, 1/10⟩ = 6 := by
  refine ⟨?_, ?_, ?_, ?_, ?_, ?_, ?_, ?_⟩
  all_goals
    first
    | with_unfolding_all decide
    | (intro h
       simp only [calculateOptimalPrecision]
       split_ifs <;>
         first
         | rfl
         | (exfalso
            rcases h with ⟨ha, hb⟩ <;> linarith)
         | (exfalso; linarith))

/-- C5 witness: the policy applied to a concrete 12°×12° box. -/
theorem C5_precision_policy_witness :
    calculateOptimalPrecision ⟨0, 12, 0, 12⟩ = 3 :=
  (C5_precision_policy ⟨0, 12, 0, 12⟩).1 (by norm_num)

/-- Inserting into the cache under a key that was absent makes it
retrievable. -/
theorem cacheGet_cacheSet_self (c : Cache) (k : String) (v : Place × ℤ)
    (h : cacheGet c k = none) : cacheGet (cacheSet c k v) k = some v := by
  have hf : List.find? (fun e => e.1 = k) c = none := by
    simpa [cacheGet] using h
  simp [cacheSet, hf, cacheGet, List.find?_append]

/-- C9: with no cached entry for the id, a stored place, and two calls
whose instants are less than the 60-second TTL apart, the first
`getPlaceById` performs exactly one storage fetch and caches the item at
its own timestamp, and the second returns that cached value with zero
storage fetches and an unchanged cache. -/
theorem C9_read_through_cache (store : List Place) (cache : Cache) (id : String)
    (p : Place) (t0 t1 : ℤ)
    (hc : cacheGet cache ("place:" ++ id) = none)
    (hs : getItem store id = some p)
    (httl : t1 - t0 < CACHE_TTL) :
    getPlaceById t0 store cache id
        = ⟨some p, cacheSet cache ("place:" ++ id) (p, t0), 1⟩
    ∧ getPlaceById t1 store (getPlaceById t0 store cache id).cache id
        = ⟨some p, (getPlaceById t0 store cache id).cache, 0⟩ := by
  have h1 : getPlaceById t0 store cache id
      = ⟨some p, cacheSet cache ("place:" ++ id) (p, t0), 1⟩ := by
    simp [getPlaceById, hc, hs]
  refine ⟨h1, ?_⟩
  rw [h1]
  simp [getPlaceById, cacheGet_cacheSet_self cache _ _ hc, httl]

/-- C9 witness: a concrete store and two reads 1 second apart. -/
theorem C9_read_through_cache_witness :
    getPlaceById 0 [pZero] [] "z1"
        = ⟨some pZero, cacheSet [] ("place:" ++ "z1") (pZero, 0), 1⟩
    ∧ getPlaceById 1000 [pZero] (getPlaceById 0 [pZero] [] "z1").cache "z1"
        = ⟨some pZero, (getPlaceById 0 [pZero] [] "z1").cache, 0⟩ :=
  C9_read_through_cache [pZero] [] "z1" pZero 0 1000 (by with_unfolding_all decide)
    (by with_unfolding_all decide) (by with_unfolding_all decide)

/-! Scenario for C2: read a place (which caches it), then mutate it,
then read it again within the TTL. -/

def pC2 : Place :=
  ⟨"p1", "Cafe", "1 Main St", some ⟨1, 2⟩, none, none, [], [],
    "2026-01-01T00:00:00Z", "2026-01-01T00:00:00Z"⟩

def pC2New : Place := { pC2 with name := "New Cafe", updatedAt := "2026-01-01T00:00:02Z" }

def c2CacheAfterRead : Cache := (getPlaceById 0 [pC2] [] "p1").cache

def c2Update : UpdateResult :=
  updatePlace 1000 "2026-01-01T00:00:02Z" [pC2] c2CacheAfterRead "p1"
    { name := some "New Cafe" }

def c2ReadAfterUpdate : GetResult := getPlaceById 2000 c2Update.store c2Update.cache "p1"

def c2Delete : DeleteResult := deletePlace 3000 c2Update.store c2Update.cache "p1"

def c2ReadAfterDelete : GetResult := getPlaceById 4000 c2Delete.store c2Delete.cache "p1"

/-- C2 (code bug): neither `updatePlace` nor `deletePlace` invalidates
the cache entry for the mutated id.  In this scenario a place is read at
t=0s (populating the cache), successfully renamed at t=1s (the store now
holds the renamed place), yet `getPlaceById` at t=2s still returns the
superseded pre-update place from the cache; after a successful delete at
t=3s (the store is empty) the read at t=4s still returns the cached
pre-update place instead of absence. -/
theorem C2_stale_cache_after_mutation :
    c2Update.result = Except.ok (some pC2New)
    ∧ c2Update.store = [pC2New]
    ∧ c2ReadAfterUpdate.result = some pC2
    ∧ ¬ pC2 = pC2New
    ∧ c2Delete.result = true
    ∧ c2Delete.store = []
    ∧ c2ReadAfterDelete.result = some pC2 := by
  with_unfolding_all decide

/-- C10: `createPlace` overwrites any caller-supplied id with the fresh
UUID and stamps `createdAt` and `updatedAt` with the same instant, so
every successfully created place has `id = uuid` and
`createdAt = updatedAt`. -/
theorem C10_fresh_id_and_equal_timestamps :
    ∀ (now uuid : String) (store : List Place) (d : PlaceInput) (p : Place)
      (store2 : List Place),
      createPlace now uuid store d = Except.ok (p, store2) →
      p.id = uuid ∧ p.createdAt = now ∧ p.updatedAt = now
        ∧ p.createdAt = p.updatedAt := by
  intro now uuid store d p store2 h
  simp only [createPlace] at h
  rcases hd : d.location with _ | loc <;> rw [hd] at h <;>
    split_ifs at h <;>
    simp only [Except.ok.injEq, Prod.mk.injEq] at h <;>
    obtain ⟨hp, _⟩ := h <;> subst hp <;> simp

/-- C10 witness: a concrete creation, with a caller-supplied id in the
input data that is discarded. -/
def c10Input : PlaceInput :=
  { id := some "caller-chosen", name := "New Coffee Shop", address := "456 Coffee St",
    location := some ⟨0, 0⟩ }

def c10Place : Place :=
  ⟨"uuid-1", "New Coffee Shop", "456 Coffee St", some ⟨0, 0⟩,
    some (encodeGeohash 0 0 9), none, [], [],
    "2026-02-03T04:05:06Z", "2026-02-03T04:05:06Z"⟩

theorem C10_fresh_id_and_equal_timestamps_witness :
    c10Place.id = "uuid-1" ∧ c10Place.createdAt = "2026-02-03T04:05:06Z"
    ∧ c10Place.updatedAt = "2026-02-03T04:05:06Z"
    ∧ c10Place.createdAt = c10Place.updatedAt :=
  C10_fresh_id_and_equal_timestamps "2026-02-03T04:05:06Z" "uuid-1" [] c10Input
    c10Place [c10Place] (by with_unfolding_all decide)

/-- The spec invariant (section 3): when a place carries a location, its
stored `geohash` is the full-precision (9) encoding of that location. -/
def geohashConsistent (p : Place) : Bool :=
  match p.location with
  | none => true
  | some loc => p.geohash = some (encodeGeohash loc.latitude loc.longitude 9)

/-- Whatever `getPlaceById` returns was either in the store or in the
cache. -/
theorem getPlaceById_result_mem (now : ℤ) (store : List Place) (cache : Cache)
    (id : String) (q : Place)
    (h : (getPlaceById now store cache id).result = some q) :
    q ∈ store ∨ ∃ e ∈ cache, e.2.1 = q := by
  simp only [getPlaceById] at h
  have fetchCase :
      (match getItem store id with
        | some item =>
          (⟨some item, cacheSet cache ("place:" ++ id) (item, now), 1⟩ : GetResult)
        | none => ⟨none, cache, 1⟩).result = some q →
      q ∈ store ∨ ∃ e ∈ cache, e.2.1 = q := by
    intro hf
    rcases hgi : getItem store id with _ | it <;> rw [hgi] at hf <;> simp at hf
    subst hf
    exact Or.inl (List.mem_of_find?_eq_some hgi)
  rcases hcg : cacheGet cache ("place:" ++ id) with _ | ⟨data, ts⟩
  · rw [hcg] at h
    exact fetchCase h
  · rw [hcg] at h
    dsimp only at h
    split_ifs at h with httl
    · simp at h
      subst h
      obtain ⟨e, hfe, he2⟩ := Option.map_eq_some'.mp hcg
      refine Or.inr ⟨e, List.mem_of_find?_eq_some hfe, ?_⟩
      rw [he2]
    · exact fetchCase h

/-! Scenario for C8: an update whose data carries a `geohash` field but
no `location`. -/

def pC8 : Place :=
  ⟨"g1", "Geo Cafe", "9 Grid Rd", some ⟨0, 0⟩, some (encodeGeohash 0 0 9), none,
    [], [], "2026-01-01T00:00:00Z", "2026-01-01T00:00:00Z"⟩

def pC8Bad : Place := { pC8 with geohash := some "zzzz", updatedAt := "2026-01-01T00:00:02Z" }

def c8Update : UpdateResult :=
  updatePlace 0 "2026-01-01T00:00:02Z" [pC8] [] "g1" { geohash := some "zzzz" }

/-- C8 (counterexample): an update whose data sets `geohash` without a
`location` persists that geohash verbatim: starting from a consistent
stored place at (0,0), `updatePlace` succeeds and persists a place whose
location is still (0,0) but whose geohash is the caller-supplied
"zzzz", which is not the encoding of the location. -/
theorem C8_counterexample :
    geohashConsistent pC8 = true
    ∧ c8Update.result = Except.ok (some pC8Bad)
    ∧ c8Update.store = [pC8Bad]
    ∧ pC8Bad.location = some ⟨0, 0⟩
    ∧ pC8Bad.geohash = some "zzzz"
    ∧ geohashConsistent pC8Bad = false := by
  with_unfolding_all decide

/-- C8 (amended): every place persisted through `createPlace` satisfies
geohash = encodeGeohash(location, 9) — createPlace computes it from the
supplied location before writing (and validation rejects data lacking a
location); a place persisted through `updatePlace` satisfies the
invariant provided the update data carries a `location` (the geohash is
recomputed) or carries no explicit `geohash` (the existing consistent
pair is preserved), the stored and cached places being consistent.  An
update that sets `geohash` alone can break the invariant (see the
counterexample). -/
theorem C8_geohash_invariant :
    (∀ (now uuid : String) (store : List Place) (d : PlaceInput) (p : Place)
        (store2 : List Place),
        createPlace now uuid store d = Except.ok (p, store2) →
        ∃ loc, p.location = some loc
          ∧ p.geohash = some (encodeGeohash loc.latitude loc.longitude 9))
    ∧ (∀ (now : ℤ) (nowIso : String) (store : List Place) (cache : Cache)
        (id : String) (d : PlaceUpdate) (p : Place),
        (d.location.isSome ∨ d.geohash = none) →
        (∀ q ∈ store, geohashConsistent q = true) →
        (∀ e ∈ cache, geohashConsistent e.2.1 = true) →
        (updatePlace now nowIso store cache id d).result = Except.ok (some p) →
        geohashConsistent p = true ∧ p.location.isSome = true) := by
  constructor
  · intro now uuid store d p store2 h
    simp only [createPlace] at h
    rcases hd : d.location with _ | loc <;> rw [hd] at h
    · rw [if_neg (by simp [placeValid])] at h
      exact absurd h (by simp)
    · split_ifs at h
      simp only [Except.ok.injEq, Prod.mk.injEq] at h
      obtain ⟨hp, _⟩ := h
      subst hp
      exact ⟨loc, rfl, rfl⟩
  · intro now nowIso store cache id d p hdata hstore hcache h
    simp only [updatePlace] at h
    rcases hg : (getPlaceById now store cache id).result with _ | existing <;>
      rw [hg] at h <;> dsimp only at h
    · exact absurd h (by simp)
    · have hex : geohashConsistent existing = true := by
        rcases getPlaceById_result_mem now store cache id existing hg with hm | ⟨e, he, hq⟩
        · exact hstore existing hm
        · rw [← hq]; exact hcache e he
      rcases hloc : d.location with _ | loc <;> rw [hloc] at h <;>
        dsimp only at h <;>
        split_ifs at h with hv <;>
        simp only [Except.ok.injEq, Option.some.injEq] at h <;>
        subst h
      · -- update without a location: d.geohash must be none
        have hgh : d.geohash = none := by
          rcases hdata with hd1 | hd1
          · rw [hloc] at hd1; exact absurd hd1 (by simp)
          · exact hd1
        rcases hsome : existing.location with _ | loc2
        · exfalso
          simp [placeValid, hsome, hgh] at hv
        · have hexg : existing.geohash
              = some (encodeGeohash loc2.latitude loc2.longitude 9) := by
            simpa [geohashConsistent, hsome] using hex
          exact ⟨by simp [geohashConsistent, hsome, hgh, hexg], by simp [hsome]⟩
      · -- update with a location: geohash freshly recomputed
        exact ⟨by simp [geohashConsistent], by simp⟩

/-- C8 witness: the create branch of the invariant applied to a
concrete creation at the origin. -/
theorem C8_geohash_invariant_witness :
    ∃ loc, c10Place.location = some loc
      ∧ c10Place.geohash = some (encodeGeohash loc.latitude loc.longitude 9) :=
  C8_geohash_invariant.1 "2026-02-03T04:05:06Z" "uuid-1" [] c10Input c10Place
    [c10Place] (by with_unfolding_all decide)

/-- If every per-cell lookup succeeds, the collected batch succeeds. -/
theorem collectAll_ok (query : String → Except String (List Place)) :
    ∀ (cells : List String),
      (∀ c ∈ cells, ∃ l, query c = Except.ok l) →
      ∃ ls, collectAll (cells.map query) = Except.ok ls
  | [], _ => ⟨[], rfl⟩
  | c :: cs, h => by
    obtain ⟨l, hl⟩ := h c (List.mem_cons_self c cs)
    obtain ⟨ls, hls⟩ := collectAll_ok query cs (fun x hx => h x (List.mem_cons_of_mem c hx))
    exact ⟨l :: ls, by simp [collectAll, hl, hls, Except.map]⟩

/-- If some per-cell lookup fails, the collected batch fails with the
error of a failing cell. -/
theorem collectAll_error (query : String → Except String (List Place)) :
    ∀ (cells : List String) (c e), c ∈ cells → query c = Except.error e →
      ∃ msg, collectAll (cells.map query) = Except.error msg
        ∧ ∃ c2 ∈ cells, query c2 = Except.error msg
  | [], c, e, hc, _ => absurd hc (List.not_mem_nil c)
  | hd :: tl, c, e, hc, hq => by
    rcases hhd : query hd with ehd | lhd
    · exact ⟨ehd, by simp [collectAll, hhd], hd, List.mem_cons_self hd tl, hhd⟩
    · have hctl : c ∈ tl := by
        rcases List.mem_cons.mp hc with rfl | htl
        · rw [hhd] at hq; exact absurd hq (by simp)
        · exact htl
      obtain ⟨msg, hm, c2, hc2, hq2⟩ := collectAll_error query tl c e hctl hq
      exact ⟨msg, by simp [collectAll, hhd, hm, Except.map],
        c2, List.mem_cons_of_mem hd hc2, hq2⟩

/-- C1 (amended): `getPlacesNearby` performs no validation of the
radius (nor of the coordinates): for every non-positive radius it runs
the search anyway, and whenever all candidate-cell lookups succeed it
returns an ordinary result sequence instead of an input-validation
error. -/
theorem C1_no_radius_validation :
    ∀ (cosLat : ℚ) (dist : ℚ → ℚ → ℚ → ℚ → ℚ)
      (query : String → Except String (List Place)) (lat lng radiusKm : ℚ),
      radiusKm ≤ 0 →
      (∀ c, ∃ l, query c = Except.ok l) →
      ∃ res, getPlacesNearby cosLat dist query lat lng radiusKm = Except.ok res := by
  intro cosLat dist query lat lng radiusKm _ hq
  obtain ⟨ls, hls⟩ := collectAll_ok query
    (calculateNeighborGeohashes (encodeGeohash lat lng 9)
      (calculateBoundingBox cosLat lat lng radiusKm)) (fun c _ => hq c)
  simp only [getPlacesNearby]
  rw [hls]
  exact ⟨_, rfl⟩

/-- C1 (counterexample): with radius -1 (non-positive) at the origin,
the search does not reject the call with an input-validation error: it
queries the candidate cells and returns the empty result sequence. -/
theorem C1_counterexample :
    getPlacesNearby 1 haversine0 queryEmpty 0 0 (-1) = Except.ok [] := by
  with_unfolding_all decide

/-- C1 witness: the amended statement applied at radius -2. -/
theorem C1_no_radius_validation_witness :
    ∃ res, getPlacesNearby 1 haversine0 queryEmpty 0 0 (-2) = Except.ok res :=
  C1_no_radius_validation 1 haversine0 queryEmpty 0 0 (-2) (by norm_num)
    (fun _ => ⟨[], rfl⟩)

/-- C6: if the lookup for any one of the candidate cells fails, the
whole search fails with an error wrapping the underlying cause (the
thrown error message is prefixed by the failure banner), and no result
sequence, not even a truncated one, is produced. -/
theorem C6_lookup_failure_fails_search :
    ∀ (cosLat : ℚ) (dist : ℚ → ℚ → ℚ → ℚ → ℚ)
      (query : String → Except String (List Place)) (lat lng radiusKm : ℚ)
      (c e : String),
      c ∈ calculateNeighborGeohashes (encodeGeohash lat lng 9)
            (calculateBoundingBox cosLat lat lng radiusKm) →
      query c = Except.error e →
      ∃ msg,
        getPlacesNearby cosLat dist query lat lng radiusKm
          = Except.error ("Failed to fetch nearby places: " ++ msg)
        ∧ ∃ c2 ∈ calculateNeighborGeohashes (encodeGeohash lat lng 9)
              (calculateBoundingBox cosLat lat lng radiusKm),
            query c2 = Except.error msg := by
  intro cosLat dist query lat lng radiusKm c e hc hq
  obtain ⟨msg, hm, hwit⟩ := collectAll_error query
    (calculateNeighborGeohashes (encodeGeohash lat lng 9)
      (calculateBoundingBox cosLat lat lng radiusKm)) c e hc hq
  refine ⟨msg, ?_, hwit⟩
  simp only [getPlacesNearby]
  rw [hm]

/-- C6 witness: a lookup collaborator that always rejects makes the
search at the origin fail with the wrapping error. -/
theorem C6_lookup_failure_fails_search_witness :
    ∃ msg,
      getPlacesNearby 1 haversine0 queryDown 0 0 100
        = Except.error ("Failed to fetch nearby places: " ++ msg)
      ∧ ∃ c2 ∈ calculateNeighborGeohashes (encodeGeohash 0 0 9)
            (calculateBoundingBox 1 0 0 100),
          queryDown c2 = Except.error msg :=
  C6_lookup_failure_fails_search 1 haversine0 queryDown 0 0 100 "ebpbp"
    "connection lost" (by with_unfolding_all decide) rfl

/-- Every survivor of the second-pass filter carries an annotated
distance within the radius, and keeps the id of some queried place. -/
theorem mem_annotateAndFilter (dist : ℚ → ℚ → ℚ → ℚ → ℚ) (lat lng radiusKm : ℚ)
    (results : List Place) (p : Place)
    (h : p ∈ annotateAndFilter dist lat lng radiusKm results) :
    (∃ d, p.distance = some d ∧ d ≤ radiusKm) ∧ ∃ q ∈ results, p.id = q.id := by
  simp only [annotateAndFilter, List.mem_filterMap] at h
  obtain ⟨q, hq, hf⟩ := h
  rcases hql : q.location with _ | loc <;> rw [hql] at hf <;> dsimp only at hf
  · exact absurd hf (by simp)
  · split_ifs at hf with hd
    simp only [Option.some.injEq] at hf
    subst hf
    exact ⟨⟨_, rfl, hd⟩, q, hq, rfl⟩

/-- C7: every successful `getPlacesNearby` result is sorted
non-decreasing by the annotated distance field, and every returned
place carries an annotated distance that is at most the radius (places
farther away are discarded by the second-pass filter). -/
theorem C7_sorted_and_within_radius :
    ∀ (cosLat : ℚ) (dist : ℚ → ℚ → ℚ → ℚ → ℚ)
      (query : String → Except String (List Place)) (lat lng radiusKm : ℚ)
      (res : List Place),
      getPlacesNearby cosLat dist query lat lng radiusKm = Except.ok res →
      List.Pairwise (fun a b => distOr0 a ≤ distOr0 b) res
      ∧ ∀ p ∈ res, ∃ d, p.distance = some d ∧ d ≤ radiusKm := by
  intro cosLat dist query lat lng radiusKm res h
  simp only [getPlacesNearby] at h
  rcases hca : collectAll ((calculateNeighborGeohashes (encodeGeohash lat lng 9)
      (calculateBoundingBox cosLat lat lng radiusKm)).map query) with e | qrs <;>
    rw [hca] at h <;> dsimp only at h
  · exact absurd h (by simp)
  · simp only [Except.ok.injEq] at h
    subst h
    constructor
    · haveI : IsTotal Place (fun a b => distOr0 a ≤ distOr0 b) :=
        ⟨fun a b => le_total _ _⟩
      haveI : IsTrans Place (fun a b => distOr0 a ≤ distOr0 b) :=
        ⟨fun a b c h1 h2 => le_trans h1 h2⟩
      exact List.sorted_insertionSort _ _
    · intro p hp
      have hp2 : p ∈ annotateAndFilter dist lat lng radiusKm qrs.flatten :=
        (List.perm_insertionSort _ _).mem_iff.mp hp
      exact (mem_annotateAndFilter dist lat lng radiusKm qrs.flatten p hp2).1

/-- C7 witness: the property applied to the concrete origin search. -/
theorem C7_sorted_and_within_radius_witness :
    List.Pairwise (fun a b => distOr0 a ≤ distOr0 b) [pZeroNear]
    ∧ ∀ p ∈ [pZeroNear], ∃ d, p.distance = some d ∧ d ≤ (100 : ℚ) :=
  C7_sorted_and_within_radius 1 haversine0 (queryByGeohash [pZero]) 0 0 100
    [pZeroNear] (by with_unfolding_all decide)

/-- Every neighbor cell is re-encoded at the precision of the input
cell, so all have its length. -/
theorem neighbors_length (h : String) : ∀ c ∈ neighbors h, c.length = h.length := by
  intro c hc
  simp only [neighbors, List.mem_cons, List.not_mem_nil, or_false] at hc
  rcases hc with rfl | rfl | rfl | rfl | rfl | rfl | rfl | rfl <;>
    exact encodeGeohash_length _ _ _

/-- All nine candidate cells share the length of the truncated center
cell. -/
theorem calculateNeighborGeohashes_length (g : String) (bb : BoundingBox) :
    ∀ c ∈ calculateNeighborGeohashes g bb,
      c.length = (g.take (calculateOptimalPrecision bb)).length := by
  intro c hc
  simp only [calculateNeighborGeohashes, List.mem_append, List.mem_cons,
    List.not_mem_nil, or_false] at hc
  rcases hc with hn | rfl
  · exact neighbors_length _ c hn
  · rfl

/-- The batch of prefix lookups over a concrete table always succeeds,
returning the per-cell filters. -/
theorem collectAll_queryByGeohash (db : List Place) : ∀ (cells : List String),
    collectAll (cells.map (queryByGeohash db))
      = Except.ok (cells.map (fun c =>
          db.filter (fun p => c.data.isPrefixOf (p.geohash.getD "").data)))
  | [] => rfl
  | c :: cs => by
    simp [collectAll, queryByGeohash, collectAll_queryByGeohash db cs, Except.map]

/-- The second-pass filter only changes the transient `distance` field, so
the multiset of ids it emits embeds into the candidates: as lists, the
ids of the output form a sublist of the ids of the input. -/
theorem filterMap_ids_sublist (f : Place → Option Place)
    (hf : ∀ p q, f p = some q → q.id = p.id) :
    ∀ (results : List Place),
      List.Sublist ((results.filterMap f).map Place.id) (results.map Place.id)
  | [] => by simp
  | q :: rest => by
    rw [List.filterMap_cons]
    rcases hfq : f q with _ | p
    · exact (filterMap_ids_sublist f hf rest).trans (List.sublist_cons_self _ _)
    · rw [List.map_cons, List.map_cons, hf q p hfq]
      exact (filterMap_ids_sublist f hf rest).cons₂ q.id

theorem annotateAndFilter_ids_sublist (dist : ℚ → ℚ → ℚ → ℚ → ℚ)
    (lat lng radiusKm : ℚ) (results : List Place) :
    List.Sublist ((annotateAndFilter dist lat lng radiusKm results).map Place.id)
      (results.map Place.id) := by
  apply filterMap_ids_sublist
  intro p q h
  rcases hql : p.location with _ | loc <;> rw [hql] at h <;> dsimp only at h
  · exact absurd h (by simp)
  · split_ifs at h
    simp only [Option.some.injEq] at h
    subst h
    rfl

/-! Scenario for the C3 counterexample: a cell in the top latitude row.
The north neighbor of such a cell re-encodes to the cell itself (its
latitude offset is clamped at the pole), so the candidate list repeats
the center cell and the place stored there is fetched twice. -/

/-- C3 (counterexample): at (89, 0) with radius 600 km the truncated
center cell (top latitude row, precision 3) appears twice among the
candidate cells, the lookups are not deduplicated, and the single
stored place is returned twice — two elements with the same id. -/
theorem C3_counterexample :
    getPlacesNearby cos89 haversine0 (queryByGeohash [pPole]) 89 0 600
      = Except.ok [pPoleNear, pPoleNear]
    ∧ ¬ (([pPoleNear, pPoleNear]).map Place.id).Nodup := by
  with_unfolding_all decide

/-- C3 (amended): the search deduplicates neither the candidate cells
nor the fetched results; the returned sequence is free of duplicate ids
only when the nine candidate cells are pairwise distinct (which fails
near the poles, see the counterexample), the underlying table having
distinct ids.  Distinct equal-length cells match disjoint sets of
geohashes, so in that case each stored place is fetched at most once. -/
theorem C3_nodup_only_for_distinct_cells :
    ∀ (cosLat : ℚ) (dist : ℚ → ℚ → ℚ → ℚ → ℚ) (db : List Place)
      (lat lng radiusKm : ℚ) (res : List Place),
      (calculateNeighborGeohashes (encodeGeohash lat lng 9)
        (calculateBoundingBox cosLat lat lng radiusKm)).Nodup →
      (db.map Place.id).Nodup →
      getPlacesNearby cosLat dist (queryByGeohash db) lat lng radiusKm
        = Except.ok res →
      (res.map Place.id).Nodup := by
  intro cosLat dist db lat lng radiusKm res hcells hdb h
  simp only [getPlacesNearby] at h
  rw [collectAll_queryByGeohash db] at h
  dsimp only at h
  simp only [Except.ok.injEq] at h
  subst h
  have hflat :
      (((calculateNeighborGeohashes (encodeGeohash lat lng 9)
          (calculateBoundingBox cosLat lat lng radiusKm)).flatMap (fun c =>
            db.filter (fun p => c.data.isPrefixOf (p.geohash.getD "").data))).map
        Place.id).Nodup := by
    rw [List.map_flatMap]
    apply List.nodup_flatMap.mpr
    refine ⟨fun c _ => hdb.sublist ((List.filter_sublist db).map Place.id), ?_⟩
    have hlen := calculateNeighborGeohashes_length (encodeGeohash lat lng 9)
      (calculateBoundingBox cosLat lat lng radiusKm)
    refine List.Pairwise.imp_of_mem ?_ hcells
    intro a b ha hb hne x hxa hxb
    simp only [List.mem_map, List.mem_filter] at hxa hxb
    obtain ⟨p1, ⟨hp1db, hp1pre⟩, hp1id⟩ := hxa
    obtain ⟨p2, ⟨hp2db, hp2pre⟩, hp2id⟩ := hxb
    have hp12 : p1 = p2 :=
      List.inj_on_of_nodup_map hdb hp1db hp2db (by rw [hp1id, hp2id])
    subst hp12
    have hpa : a.data <+: (p1.geohash.getD "").data :=
      List.isPrefixOf_iff_prefix.mp hp1pre
    have hpb : b.data <+: (p1.geohash.getD "").data :=
      List.isPrefixOf_iff_prefix.mp hp2pre
    have hl : a.data.length = b.data.length := by
      have h1 := hlen a ha
      have h2 := hlen b hb
      simp only [String.length] at h1 h2
      rw [h1, h2]
    have hab : a.data = b.data :=
      (List.prefix_of_prefix_length_le hpa hpb (le_of_eq hl)).eq_of_length hl
    apply hne
    cases a
    cases b
    rw [show ∀ (u v : List Char), String.mk u = String.mk v ↔ u = v from
      fun u v => ⟨fun hm => by injection hm, fun hm => by rw [hm]⟩]
    exact hab
  rw [← List.flatMap_def]
  exact ((List.perm_insertionSort _ _).map Place.id).nodup_iff.mpr
    (hflat.sublist (annotateAndFilter_ids_sublist dist lat lng radiusKm _))

/-- C3 witness: at the origin the nine candidate cells are pairwise
distinct and the returned sequence has no duplicate id. -/
theorem C3_nodup_only_for_distinct_cells_witness :
    (([pZeroNear]).map Place.id).Nodup :=
  C3_nodup_only_for_distinct_cells 1 haversine0 [pZero] 0 0 100 [pZeroNear]
    (by with_unfolding_all decide) (by with_unfolding_all decide)
    (by with_unfolding_all decide)

end Workbrew
